import Mathlib

/-!
# Verification of the AFLGo/LTL-Fuzzer LLVM instrumentation pass

Shallow embedding of `src/AFLGo/llvm_mode/afl-llvm-pass.so.cc`
(`AFLCoverage::runOnModule` and its helpers) and proofs about it.

Modelling conventions:
* C++ `std::string` is Lean `String`; string scans are expressed through
  `String.toList`.
* `std::map<K,V>` is an insertion-ordered association list with unique keys;
  `emplace`/`insert` (which never overwrite an existing key) are modelled by
  `mapInsert`.  `std::map` iterates in sorted key order while the model keeps
  insertion order; every fact proved here about iteration (the in-loop scan of
  `bb_to_dis`) only depends on keys being unique, so the order difference is
  immaterial.
* `double` values produced by `atof` are modelled as exact rationals (`ℚ`).
  All concrete inputs used in theorems below are small dyadic or exactly
  representable decimal values for which the C `double` pipeline
  (`atof`, `100.0 * x`, `(int)` cast) computes the same result as the exact
  rational model.
* `random()` (used through `AFL_R`) is modelled as an explicit stream of
  naturals consumed left to right.
* LLVM IR is abstract: an instruction carries exactly the data the pass
  inspects (debug location, static callee of a call, whether it is a `ret`);
  a function carries its name, whether it has a formal argument, and its
  basic blocks.
* Code injection (`IRBuilder` calls, `InstrFunc::instr*`) is modelled as an
  emitted list of `Effect`s; one `Effect.coverage`/`Effect.distance`
  constructor stands for the whole corresponding injected instruction
  sequence.  `InstrFunc::printGlobalVariables` / `printLocalVariables`
  (compile-time debug printing, not injection) are not modelled.
-/

namespace AflLlvmPass

/-! ## String helpers: basename stripping, prefixes, number parsing -/

/-- Characters that `find_last_of("/\\")` searches for. -/
def sepFree (c : Char) : Bool := !(c == '/' || c == '\\')

/-- `filename.substr(filename.find_last_of("/\\") + 1)`: everything after the
last path separator (the whole string when no separator occurs). -/
def stripPathAux (cs : List Char) : List Char :=
  (cs.reverse.takeWhile sepFree).reverse

/-- Basename stripping as performed throughout the pass. -/
def stripPath (s : String) : String := String.mk (stripPathAux s.toList)

/-- `!filename.compare(0, Xlibs.size(), Xlibs)` with `Xlibs = "/usr/"`:
whether the string starts with the reserved system prefix. -/
def isUsrPath (s : String) : Bool := s.toList.take 5 == ['/', 'u', 's', 'r', '/']

/-- Value of a list of decimal digits. -/
def digitsVal (cs : List Char) : Nat :=
  cs.foldl (fun a c => a * 10 + (c.toNat - 48)) 0

/-- Models `sscanf("%u")` / `atoi` / `std::stoi` on plain decimal input:
the maximal leading digit run, `none` when there is no leading digit. -/
def parseUInt (s : String) : Option Nat :=
  let ds := s.toList.takeWhile Char.isDigit
  if ds.isEmpty then none else some (digitsVal ds)

/-- Models `atof` on plain nonnegative decimal input `intpart[.fracpart]`:
the exact decimal value, as the numerator/denominator pair
`(digits, 10 ^ fracLength)` (kept unreduced so that the whole distance
pipeline stays kernel-computable; `ratOfDecimal` gives the value). -/
def parseDecimal (s : String) : Nat × Nat :=
  let cs := s.toList
  let intDigits := cs.takeWhile Char.isDigit
  let rest := cs.drop intDigits.length
  let fracDigits :=
    match rest with
    | '.' :: r => r.takeWhile Char.isDigit
    | _ => []
  (digitsVal intDigits * 10 ^ fracDigits.length + digitsVal fracDigits,
   10 ^ fracDigits.length)

/-- The rational value of a parsed decimal. -/
def ratOfDecimal (p : Nat × Nat) : ℚ := (p.1 : ℚ) / (p.2 : ℚ)

/-- The C `(int)` cast on a `double`: truncation toward zero. -/
def cTrunc (q : ℚ) : Int := if 0 ≤ q then ⌊q⌋ else -⌊-q⌋

/-- `(int)(100.0 * atof(...))` (line 215) on an exactly represented
nonnegative decimal `p.1 / p.2`: truncation toward zero of `100 * value`,
computed by natural division.  `storedDistOf_eq_cTrunc` below shows this
is exactly the C cast `cTrunc` applied to the exact rational value. -/
def storedDistOf (p : Nat × Nat) : Int := ((100 * p.1) / p.2 : Nat)

/-- `line.find(",")` followed by `substr(0, pos)` / `substr(pos + 1, ...)`.
When no comma occurs, `pos == npos` and (by unsigned wraparound of `npos+1`)
both halves are the whole line. -/
def splitAtFirstComma (s : String) : String × String :=
  let cs := s.toList
  let pre := cs.takeWhile (fun c => !(c == ','))
  if pre.length = cs.length then (s, s)
  else (String.mk pre, String.mk (cs.drop (pre.length + 1)))

/-- `rfind(":")` followed by `substr(0, pos)` / `substr(pos + 1, ...)`:
split at the last colon; with no colon both halves are the whole line. -/
def splitAtLastColon (s : String) : String × String :=
  let cs := s.toList
  let suffix := cs.reverse.takeWhile (fun c => !(c == ':'))
  if suffix.length = cs.length then (s, s)
  else (String.mk (cs.take (cs.length - suffix.length - 1)), String.mk suffix.reverse)

/-! ## Association-list model of `std::map` -/

/-- `std::map::find` (exact key lookup). -/
def mapFind? {α : Type} (m : List (String × α)) (k : String) : Option α :=
  (m.find? (fun p => p.1 == k)).map Prod.snd

/-- `std::map::emplace` / `std::map::insert`: insert only when the key is
absent; an existing entry is never overwritten. -/
def mapInsert {α : Type} (m : List (String × α)) (k : String) (v : α) :
    List (String × α) :=
  if (mapFind? m k).isSome then m else m ++ [(k, v)]

/-- The in-loop distance lookup of Phase 2 (lines 511-516): iterate over the
whole map and keep the value of the *last* entry whose key compares equal,
starting from the sentinel `-1`. -/
def scanDistance (m : List (String × Int)) (bb : String) : Int :=
  m.foldl (fun acc p => if p.1 == bb then p.2 else acc) (-1)

/-! ## Distance and event file loaders -/

/-- One distance-file record `<blockIdentity>,<floatDistance>`; the distance
is parsed as a float (lines 213-215). -/
def parseDistLine (s : String) : String × (Nat × Nat) :=
  let nd := splitAtFirstComma s
  (nd.1, parseDecimal nd.2)

/-- One iteration of the Distance Map Loader loop (lines 211-220):
`emplace` the truncated scaled distance into `bb_to_dis` and append the
identity to `basic_blocks`. -/
def loadDistanceStep (acc : List (String × Int) × List String) (line : String) :
    List (String × Int) × List String :=
  let nd := parseDistLine line
  (mapInsert acc.1 nd.1 (storedDistOf nd.2), acc.2 ++ [nd.1])

/-- The Distance Map Loader (lines 211-220). -/
def loadDistance (lines : List String) : List (String × Int) × List String :=
  lines.foldl loadDistanceStep ([], [])

/-- The distance the Phase-2 scan applies to a block with identity `bb`,
given the raw distance-file lines: loader followed by the in-loop scan. -/
def appliedDistance (lines : List String) (bb : String) : Int :=
  scanDistance (loadDistance lines).1 bb

/-- The value recorded on the *first* distance-file line carrying identity
`bb` (sentinel `-1` when no line does). -/
def firstFileDistance (lines : List String) (bb : String) : Int :=
  match lines.find? (fun l => (parseDistLine l).1 == bb) with
  | some l => storedDistOf (parseDistLine l).2
  | none => -1

/-- Automaton (RERS) event loader (lines 229-235): split each line at the
last colon, `std::stoi` the event, `insert` into `loc_to_revt`.
`std::stoi` throws on non-numeric input; the model is only used on numeric
event fields and falls back to `0` elsewhere. -/
def loadREvents (lines : List String) : List (String × Int) :=
  lines.foldl
    (fun m l =>
      let le := splitAtLastColon l
      mapInsert m le.1 (((parseUInt le.2).getD 0 : Nat) : Int))
    []

/-- Protocol event loader (lines 248-252): same last-colon split, the event
is kept as a string. -/
def loadPEvents (lines : List String) : List (String × String) :=
  lines.foldl
    (fun m l =>
      let le := splitAtLastColon l
      mapInsert m le.1 le.2)
    []

/-! ## Abstract IR -/

/-- An LLVM instruction, reduced to the data the pass inspects.
`debugLoc` models `instr::InstrFunc::getDebugLoc`: `some (file, line)` when
the instruction carries a debug location, `none` otherwise (in which case
the C++ out-parameters are left untouched).  `callee` is the statically
known called function of a `CallInst`. -/
structure Instr where
  debugLoc : Option (String × Nat) := none
  callee : Option String := none
  isRet : Bool := false
deriving Repr, DecidableEq

/-- An LLVM function: its name, whether it has at least one formal argument
(`F.arg_begin() != F.arg_end()`), and its basic blocks (each a list of
instructions). -/
structure Func where
  name : String
  hasArg : Bool := false
  blocks : List (List Instr) := []
deriving Repr, DecidableEq

/-- `isBlacklisted` (lines 149-168): prefix match of the function name
against the fixed blacklist. -/
def blacklist : List String :=
  ["asan.", "llvm.", "sancov.", "__ubsan_handle_", "free", "malloc", "calloc", "realloc"]

/-- `StringRef::startswith`. -/
def strStartsWith (s p : String) : Bool := s.toList.take p.toList.length == p.toList

def isBlacklisted (name : String) : Bool :=
  blacklist.any (fun p => strStartsWith name p)

/-! ## Block identity, Phase 1 (lines 343-425) -/

/-- `atoi`/comparison step of the target loop (lines 369-378): strip the
target entry, split it at the last colon, and compare file basename and
line.  The in-place stripping the C++ loop performs on the `targets` list
elements is idempotent, so comparing against the freshly stripped entry is
equivalent. -/
def targetMatches (target filename : String) (line : Nat) : Bool :=
  let t := stripPath target
  let tl := splitAtLastColon t
  tl.1 == filename && (parseUInt tl.2).getD 0 == line

/-- Per-block scan state of the Phase-1 instruction loop.  `filename` and
`line` are declared outside the instruction loop (lines 346-347) and persist
across instructions; `filename` is always stored in stripped form because
the loop strips it before any use.  `isTarget` is the function-level
`is_target` flag; `calls` collects the `BBcalls.txt` lines emitted so far. -/
structure P1Scan where
  filename : String := ""
  line : Nat := 0
  bbName : String := ""
  isTarget : Bool := false
  calls : List String := []
deriving Repr, DecidableEq

/-- One iteration of the Phase-1 instruction loop (lines 349-394):
update `filename`/`line` from the debug location (persisted when absent),
strip the path, reject empty/zero-line/`/usr/` names, then derive the block
name (stripping the already-stripped filename once more, as the source
does), test target membership, and record call edges.  The updates are
written out field-by-field; each right-hand side matches the value the C++
variable holds at the corresponding point of the loop body. -/
def p1InstrStep (targets : List String) (st : P1Scan) (i : Instr) : P1Scan :=
  let fl :=
    match i.debugLoc with
    | some fl => fl
    | none => (st.filename, st.line)
  let f := stripPath fl.1
  let l := fl.2
  if f == "" || l == 0 || isUsrPath f then
    { st with filename := f, line := l }
  else
    let f2 := if st.bbName == "" then stripPath f else f
    let bb := if st.bbName == "" then stripPath f ++ ":" ++ toString l else st.bbName
    let tgt :=
      if !st.isTarget then targets.any (fun t => targetMatches t f2 l)
      else st.isTarget
    let calls :=
      match i.callee with
      | some c =>
          if isBlacklisted c then st.calls
          else st.calls ++ [bb ++ "," ++ c]
      | none => st.calls
    { filename := f2, line := l, bbName := bb, isTarget := tgt, calls := calls }

/-- Phase-1 scan of one basic block, with the function-level `is_target`
flag threaded in. -/
def p1Block (targets : List String) (isTarget : Bool) (instrs : List Instr) : P1Scan :=
  instrs.foldl (p1InstrStep targets) { isTarget := isTarget }

/-- The BlockIdentity Phase 1 derives for a block (the `bb_name` left by the
instruction loop).  It does not depend on the target list or on the incoming
`is_target` flag (`p1Block_core_indep` below). -/
def phase1BBName (instrs : List Instr) : String :=
  (p1Block [] false instrs).bbName

/-! ## Block identity, Phase 2 (lines 485-498) -/

/-- The Phase-2 `bb_name` loop: fresh `filename`/`line` per instruction,
`continue` on empty file or zero line, then strip and build
`basename:line`, `break`. -/
def phase2BBName : List Instr → String
  | [] => ""
  | i :: rest =>
    match i.debugLoc with
    | some fl =>
        if fl.1 == "" || fl.2 == 0 then phase2BBName rest
        else stripPath fl.1 ++ ":" ++ toString fl.2
    | none => phase2BBName rest

/-- The first instruction of a block carrying a non-empty file and nonzero
line in its debug metadata (the raw, unstripped location). -/
def firstValidLoc : List Instr → Option (String × Nat)
  | [] => none
  | i :: rest =>
    match i.debugLoc with
    | some fl =>
        if fl.1 == "" || fl.2 == 0 then firstValidLoc rest
        else some fl
    | none => firstValidLoc rest

/-- The per-instruction location identity of the monitoring loop
(lines 526-538): fresh debug location, reject empty file or zero line,
strip, `basename:line`. -/
def locName (i : Instr) : Option String :=
  match i.debugLoc with
  | some fl =>
      if fl.1 == "" || fl.2 == 0 then none
      else some (stripPath fl.1 ++ ":" ++ toString fl.2)
  | none => none

/-! ## Effects -/

/-- Observable actions of one `runOnModule` invocation.  File writes and
directory creation are the Phase-1 artifact outputs; the remaining
constructors stand for the runtime-code injections of Phase 2
(each one for the whole injected sequence of the corresponding
`InstrFunc::instr*` call or bitmap-update block). -/
inductive Effect where
  | mkdirEff (path : String)
  | write (path : String) (line : String)
  | dotFile (path : String)
  | storeLocal
  | automataHandler (hasInput : Bool) (output : Int)
  | storeGlobal
  | stateHandler
  | propHandler (prop : String)
  | evaluateTrace (flag : Nat)
  | coverage (curLoc : Nat)
  | distance (bb : String)
deriving Repr, DecidableEq

/-- Monitoring-related effects: everything emitted by the `is_ltl_fuzzing`
instruction loop (lines 522-618). -/
def isMonEffect : Effect → Bool
  | .storeLocal => true
  | .automataHandler _ _ => true
  | .storeGlobal => true
  | .stateHandler => true
  | .propHandler _ => true
  | .evaluateTrace _ => true
  | _ => false

/-- The event-hook injections guarded by the per-block `is_traversed` flag:
the automaton handler group or the proposition handler group. -/
def isHookInjection : Effect → Bool
  | .automataHandler _ _ => true
  | .propHandler _ => true
  | _ => false

/-- Protocol-mode hook injections. -/
def isPropEffect : Effect → Bool
  | .propHandler _ => true
  | _ => false

def countHooks (effs : List Effect) : Nat := (effs.filter isHookInjection).length

/-! ## Randomness -/

/-- The random stream feeding `AFL_R`. -/
def RNG := List Nat

/-- `AFL_R(x) = random() % x`, consuming one stream element (zero on an
exhausted stream). -/
def aflR (n : Nat) (rng : RNG) : Nat × RNG :=
  match rng with
  | [] => (0, [])
  | x :: xs => (x % n, xs)

/-- `MAP_SIZE` from `config.h` (`1 << MAP_SIZE_POW2`, `MAP_SIZE_POW2 = 16`
in stock AFL; `config.h` is outside `src/`, the exact value is irrelevant to
every property proved here). -/
def MAP_SIZE : Nat := 65536

/-! ## Monitoring instrumentation (lines 522-618) -/

/-- Context of the `is_ltl_fuzzing` instruction loop. -/
structure MonCtx where
  is_RERS : Bool
  loc_to_revt : List (String × Int)
  loc_to_pevt : List (String × String)
  funcName : String
  funcHasArg : Bool

/-- One iteration of the monitoring instruction loop: state is the
per-block `is_traversed` flag plus the effects emitted so far.
Instructions without a usable location are skipped wholesale (the
`continue` at line 531 also skips the `main`-return check).  Within an
instruction: branch on the global `is_RERS_fuzzing` flag, register local
variables, inject the (automaton or protocol) hook group on a map hit when
`is_traversed` is still false, and finally inject the finalizing
`evaluate_trace(0)` before a `ret` in `main` in RERS mode. -/
def monStep (ctx : MonCtx) (st : Bool × List Effect) (i : Instr) : Bool × List Effect :=
  match locName i with
  | none => st
  | some loc =>
    let trav := st.1
    let hit : Bool × List Effect :=
      if ctx.is_RERS then
        if (mapFind? ctx.loc_to_revt loc).isSome && !trav then
          (true,
           [Effect.storeLocal,
            Effect.automataHandler ctx.funcHasArg ((mapFind? ctx.loc_to_revt loc).getD 0),
            Effect.storeGlobal,
            Effect.stateHandler])
        else (trav, [Effect.storeLocal])
      else
        if (mapFind? ctx.loc_to_pevt loc).isSome && !trav then
          (true,
           [Effect.storeLocal,
            Effect.propHandler ((mapFind? ctx.loc_to_pevt loc).getD ""),
            Effect.storeGlobal,
            Effect.stateHandler,
            Effect.evaluateTrace 1])
        else (trav, [Effect.storeLocal])
    let fin : List Effect :=
      if ctx.funcName == "main" && ctx.is_RERS && i.isRet then
        [Effect.evaluateTrace 0]
      else []
    (hit.1, st.2 ++ hit.2 ++ fin)

/-- The monitoring effects emitted for one basic block
(`is_traversed` starts false per block, line 523). -/
def monBlock (ctx : MonCtx) (instrs : List Instr) : List Effect :=
  (instrs.foldl (monStep ctx) (false, [])).2

/-! ## Phase 2: per-block processing (lines 472-696) -/

/-- Configuration of the Phase-2 (distance instrumentation) loop. -/
structure P2Ctx where
  is_aflgo : Bool
  is_ltl : Bool
  is_RERS : Bool
  is_selective : Bool
  inst_ratio : Nat
  dinst_ratio : Nat
  basic_blocks : List String
  bb_to_dis : List (String × Int)
  loc_to_revt : List (String × Int)
  loc_to_pevt : List (String × String)

/-- Coverage/distance injection for one block (lines 621-694): sample the
global instrumentation ratio (`continue`, i.e. nothing injected, on
failure); otherwise inject the coverage-bitmap block at a fresh random
`cur_loc` and, when `distance >= 0`, additionally the
distance-accumulation block. -/
def processBlockTail (ctx : P2Ctx) (bb_name : String) (distance : Int)
    (rng : RNG) : List Effect × RNG :=
  let r2 := aflR 100 rng
  if ctx.inst_ratio ≤ r2.1 then ([], r2.2)
  else
    let r3 := aflR MAP_SIZE r2.2
    (Effect.coverage r3.1 ::
      (if 0 ≤ distance then [Effect.distance bb_name] else []), r3.2)

/-- Processing of one basic block in the Phase-2 loop, in source order:
derive `bb_name` (under `is_aflgo`, lines 483-498); `continue` with no
effects at all when the identity is resolved but unknown and selective mode
is on (lines 500-505); otherwise sample the distance-apply ratio and scan
`bb_to_dis` for the distance (lines 507-518); run the monitoring loop
(under `is_ltl_fuzzing`, lines 522-619); then the coverage/distance
injection of `processBlockTail`. -/
def processBlock (ctx : P2Ctx) (fname : String) (hasArg : Bool)
    (instrs : List Instr) (rng : RNG) : List Effect × RNG :=
  let bb_name := if ctx.is_aflgo then phase2BBName instrs else ""
  if ctx.is_aflgo && bb_name != "" && !(ctx.basic_blocks.contains bb_name)
      && ctx.is_selective then
    ([], rng)
  else
    let dres : Int × RNG :=
      if ctx.is_aflgo && bb_name != "" && ctx.basic_blocks.contains bb_name then
        let r := aflR 100 rng
        (if r.1 < ctx.dinst_ratio then scanDistance ctx.bb_to_dis bb_name else -1, r.2)
      else (-1, rng)
    let monEffs :=
      if ctx.is_ltl then
        monBlock ⟨ctx.is_RERS, ctx.loc_to_revt, ctx.loc_to_pevt, fname, hasArg⟩ instrs
      else []
    let tl := processBlockTail ctx bb_name dres.1 dres.2
    (monEffs ++ tl.1, tl.2)

/-- Phase-2 processing of one function (per-function local-variable scratch
state, `clearLocalVariables`, is compile-time bookkeeping and emits no
effect). -/
def processFunc (ctx : P2Ctx) (F : Func) (rng : RNG) : List Effect × RNG :=
  F.blocks.foldl
    (fun acc bb =>
      let er := processBlock ctx F.name F.hasArg bb acc.2
      (acc.1 ++ er.1, er.2))
    ([], rng)

/-- The whole Phase-2 loop over the module (no blacklist filtering here;
only Phase 1 skips blacklisted functions). -/
def runPhase2 (ctx : P2Ctx) (mod : List Func) (rng : RNG) : List Effect × RNG :=
  mod.foldl
    (fun acc F =>
      let er := processFunc ctx F acc.2
      (acc.1 ++ er.1, er.2))
    ([], rng)

/-! ## Phase 1: metadata extraction effects (lines 319-440) -/

/-- Phase-1 effects for one function: skip blacklisted functions; scan each
block (threading the function-level `is_target` and `has_BBs` flags),
emitting the `BBcalls.txt` lines collected during the scan and, for blocks
with a resolved name, the `BBnames.txt` line (the block is renamed to
`bb_name + ":"`, which is also what is written; LLVM name uniquification is
not modelled).  After the blocks: the CFG dot export and the
`Ftargets.txt` / `Fnames.txt` ledger lines for functions with blocks. -/
def p1Func (outDir : String) (targets : List String) (F : Func) : List Effect :=
  if isBlacklisted F.name then []
  else
    let res :=
      F.blocks.foldl
        (fun (acc : Bool × Bool × List Effect) bb =>
          let scan := p1Block targets acc.1 bb
          let effs := acc.2.2 ++
            scan.calls.map (fun l => Effect.write (outDir ++ "/BBcalls.txt") l)
          if scan.bbName != "" then
            (scan.isTarget, true,
             effs ++ [Effect.write (outDir ++ "/BBnames.txt") (scan.bbName ++ ":")])
          else (scan.isTarget, acc.2.1, effs))
        (false, false, [])
    if res.2.1 then
      res.2.2 ++ [Effect.dotFile (outDir ++ "/dot-files/cfg." ++ F.name ++ ".dot")]
        ++ (if res.1 then [Effect.write (outDir ++ "/Ftargets.txt") F.name] else [])
        ++ [Effect.write (outDir ++ "/Fnames.txt") F.name]
    else res.2.2

/-- The whole Phase-1 (preprocessing) run: create the dot-files directory,
then process every function.  The four ledger streams are opened in append
mode; each written line is modelled as one `Effect.write`. -/
def runPhase1 (outDir : String) (targets : List String) (mod : List Func) : List Effect :=
  Effect.mkdirEff (outDir ++ "/dot-files") :: mod.flatMap (p1Func outDir targets)

/-! ## Top level: configuration, environment, `runOnModule` -/

/-- Command-line options of the pass; `none` models an empty option
string. -/
structure Cfg where
  targetsFile : Option String := none
  distanceFile : Option String := none
  reventsFile : Option String := none
  peventsFile : Option String := none
  outDirectory : Option String := none
deriving Repr, DecidableEq

/-- The environment variables the pass reads (raw string values). -/
structure Env where
  aflInstRatio : Option String := none
  aflgoSelective : Option String := none
  aflgoInstRatio : Option String := none
deriving Repr, DecidableEq

/-- File system: a path maps to its list of lines when the file can be
opened. -/
structure FS where
  files : List (String × List String) := []
deriving Repr, DecidableEq

def FS.read? (fs : FS) (p : String) : Option (List String) := mapFind? fs.files p

/-- `AFL_INST_RATIO` / `AFLGO_INST_RATIO` validation (lines 289-295,
307-313): default 100; a set value is fatal (`none`) when it does not parse
or is `0` or exceeds `100`. -/
def checkRatioVal (v : Option String) : Option Nat :=
  match v with
  | none => some 100
  | some s =>
    match parseUInt s with
    | none => none
    | some n => if n = 0 ∨ 100 < n then none else some n

/-- `AFLGO_SELECTIVE` validation (lines 298-302): default 0; a set value is
fatal only when it does not parse — any parsed number is accepted. -/
def checkSelectiveVal (v : Option String) : Option Nat :=
  match v with
  | none => some 0
  | some s => parseUInt s

/-- The three environment checks in source order; the first failing one
produces its fatal message. -/
def runEnvChecks (env : Env) : Except String (Nat × Nat × Nat) :=
  match checkRatioVal env.aflInstRatio with
  | none => .error "Bad value of AFL_INST_RATIO (must be between 1 and 100)"
  | some inst_ratio =>
    match checkSelectiveVal env.aflgoSelective with
    | none => .error "Bad value of AFLGO_SELECTIVE (must be 0 or 1)"
    | some sel =>
      match checkRatioVal env.aflgoInstRatio with
      | none => .error "Bad value of AFLGO_INST_RATIO (must be between 1 and 100)"
      | some dinst_ratio => .ok (inst_ratio, sel, dinst_ratio)

/-- Result of one `runOnModule` invocation: the effects performed before
the run ended, the fatal message when `FATAL` aborted it, and the mode
flags the run computed. -/
structure RunOut where
  effects : List Effect := []
  fatal : Option String := none
  is_aflgo : Bool := false
  is_aflgo_preprocessing : Bool := false
  is_RERS_fuzzing : Bool := false
  is_protocol_fuzzing : Bool := false
  is_ltl_fuzzing : Bool := false
deriving Repr, DecidableEq

/-- `AFLCoverage::runOnModule`, in source order: the targets/distance
mutual-exclusion check; target-file loading (an unopenable targets file
yields no lines, as `getline` on a failed stream does) with the mandatory
output directory; distance-file loading (fatal when unopenable) with the
two optional event-map loaders, which are silently skipped when their file
cannot be opened; the three environment checks; then Phase 1 or Phase 2.
The quoted option names in the first fatal message are rendered without
the C source's surrounding single quotes. -/
def runOnModule (cfg : Cfg) (env : Env) (fs : FS) (mod : List Func) (rng : RNG) : RunOut :=
  if cfg.targetsFile.isSome && cfg.distanceFile.isSome then
    { fatal := some "Cannot specify both -targets and -distance!" }
  else
    match cfg.targetsFile with
    | some tf =>
      if cfg.outDirectory.isNone then
        { fatal := some "Provide output directory -outdir <directory>" }
      else
        let outDir := cfg.outDirectory.getD ""
        let targets := (fs.read? tf).getD []
        match runEnvChecks env with
        | .error msg => { fatal := some msg, is_aflgo_preprocessing := true }
        | .ok _ =>
          { effects := runPhase1 outDir targets mod, is_aflgo_preprocessing := true }
    | none =>
      match cfg.distanceFile with
      | some df =>
        match fs.read? df with
        | none => { fatal := some ("Unable to find " ++ df ++ ".") }
        | some lines =>
          let dist := loadDistance lines
          let rload : List (String × Int) × Bool :=
            match cfg.reventsFile with
            | some rf =>
              match fs.read? rf with
              | some rls => (loadREvents rls, true)
              | none => ([], false)
            | none => ([], false)
          let pload : List (String × String) × Bool :=
            match cfg.peventsFile with
            | some pf =>
              match fs.read? pf with
              | some pls => (loadPEvents pls, true)
              | none => ([], false)
            | none => ([], false)
          let is_RERS := rload.2
          let is_protocol := pload.2
          let is_ltl := is_RERS || is_protocol
          match runEnvChecks env with
          | .error msg =>
            { fatal := some msg, is_aflgo := true, is_RERS_fuzzing := is_RERS,
              is_protocol_fuzzing := is_protocol, is_ltl_fuzzing := is_ltl }
          | .ok v =>
            let ctx : P2Ctx :=
              { is_aflgo := true, is_ltl := is_ltl, is_RERS := is_RERS,
                is_selective := v.2.1 != 0, inst_ratio := v.1,
                dinst_ratio := v.2.2, basic_blocks := dist.2,
                bb_to_dis := dist.1, loc_to_revt := rload.1,
                loc_to_pevt := pload.1 }
            { effects := (runPhase2 ctx mod rng).1, is_aflgo := true,
              is_RERS_fuzzing := is_RERS, is_protocol_fuzzing := is_protocol,
              is_ltl_fuzzing := is_ltl }
      | none =>
        match runEnvChecks env with
        | .error msg => { fatal := some msg }
        | .ok v =>
          let ctx : P2Ctx :=
            { is_aflgo := false, is_ltl := false, is_RERS := false,
              is_selective := v.2.1 != 0, inst_ratio := v.1,
              dinst_ratio := v.2.2, basic_blocks := [], bb_to_dis := [],
              loc_to_revt := [], loc_to_pevt := [] }
          { effects := (runPhase2 ctx mod rng).1 }

/-! ## Concrete example inputs used in the closed theorems below -/

/-- A one-function, one-block module. -/
def exMod (instrs : List Instr) : List Func :=
  [{ name := "f", hasArg := true, blocks := [instrs] }]

def c3cfg : Cfg := { distanceFile := some "dist", reventsFile := some "rev" }

def c3fs : FS := ⟨[("dist", ["b.c:1,0.5"]), ("rev", ["a.c:5:3"])]⟩

/-- Selective mode on, RERS monitoring on, one block whose identity
`a.c:5` matches the event map but is absent from the distance map. -/
def c3run : RunOut :=
  runOnModule c3cfg { aflgoSelective := some "1" } c3fs
    (exMod [{ debugLoc := some ("a.c", 5) }]) []

def c8cfg : Cfg :=
  { distanceFile := some "dist", reventsFile := some "rev", peventsFile := some "pev" }

def c8fs : FS :=
  ⟨[("dist", ["a.c:5,0.5"]), ("rev", ["x.c:1:3"]), ("pev", ["a.c:5:p"])]⟩

/-- Both event files supplied; the block identity `a.c:5` appears only in
the protocol event map. -/
def c8run : RunOut :=
  runOnModule c8cfg {} c8fs (exMod [{ debugLoc := some ("a.c", 5) }]) []

/-- A Phase-2 context in RERS mode whose protocol map carries the block. -/
def c8ctx : P2Ctx :=
  { is_aflgo := true, is_ltl := true, is_RERS := true, is_selective := false,
    inst_ratio := 100, dinst_ratio := 100, basic_blocks := ["a.c:5"],
    bb_to_dis := [("a.c:5", 50)], loc_to_revt := [],
    loc_to_pevt := [("a.c:5", "p")] }

/-- A selective Phase-2 context that does not know identity `a.c:5`. -/
def c3ctx : P2Ctx :=
  { is_aflgo := true, is_ltl := true, is_RERS := true, is_selective := true,
    inst_ratio := 100, dinst_ratio := 100, basic_blocks := ["b.c:1"],
    bb_to_dis := [("b.c:1", 50)], loc_to_revt := [("a.c:5", 3)],
    loc_to_pevt := [] }

/-! ## Supporting lemmas: path stripping -/

theorem toList_mk (cs : List Char) : (String.mk cs).toList = cs := rfl

theorem sepFree_of_mem_stripPathAux {c : Char} {cs : List Char}
    (h : c ∈ stripPathAux cs) : sepFree c = true := by
  unfold stripPathAux at h
  rw [List.mem_reverse] at h
  exact List.mem_takeWhile_imp h

theorem stripPathAux_idem (cs : List Char) :
    stripPathAux (stripPathAux cs) = stripPathAux cs := by
  have h : (stripPathAux cs).reverse.takeWhile sepFree = (stripPathAux cs).reverse :=
    List.takeWhile_eq_self_iff.mpr (fun c hc =>
      sepFree_of_mem_stripPathAux (List.mem_reverse.mp hc))
  show ((stripPathAux cs).reverse.takeWhile sepFree).reverse = stripPathAux cs
  rw [h, List.reverse_reverse]

theorem stripPath_idem (s : String) : stripPath (stripPath s) = stripPath s := by
  unfold stripPath
  rw [toList_mk, stripPathAux_idem]

theorem stripPath_empty : stripPath "" = "" := rfl

/-- The Phase-1 reserved-prefix test is applied to the already-stripped
basename, which can never contain a path separator, hence never starts
with `/usr/`. -/
theorem isUsrPath_stripPath (s : String) : isUsrPath (stripPath s) = false := by
  rw [isUsrPath, beq_eq_false_iff_ne]
  intro h
  have hm : '/' ∈ (stripPath s).toList.take 5 := by rw [h]; simp
  have hm2 : '/' ∈ stripPathAux s.toList := List.take_subset _ _ hm
  have hc := sepFree_of_mem_stripPathAux hm2
  simp [sepFree] at hc

theorem append_colon_ne_empty (a b : String) : a ++ ":" ++ b ≠ "" := by
  intro h
  have hl := congrArg String.length h
  simp [String.length_append] at hl
  exact absurd hl.1.2 (by decide)

/-! ## Supporting lemmas: the distance map -/

theorem scan_fold_no_key (m : List (String × Int)) (bb : String) (a : Int)
    (h : ∀ p ∈ m, (p.1 == bb) = false) :
    m.foldl (fun acc p => if p.1 == bb then p.2 else acc) a = a := by
  induction m generalizing a with
  | nil => rfl
  | cons p t ih =>
    rw [List.foldl_cons, if_neg (by simp [h p (List.mem_cons_self p t)])]
    exact ih a (fun q hq => h q (List.mem_cons_of_mem p hq))

theorem scanDistance_eq_of_find (m : List (String × Int)) (bb : String) (v : Int)
    (hnd : (m.map Prod.fst).Nodup) (h : mapFind? m bb = some v) :
    scanDistance m bb = v := by
  induction m generalizing v with
  | nil => simp [mapFind?] at h
  | cons p t ih =>
    rw [List.map_cons, List.nodup_cons] at hnd
    by_cases hk : (p.1 == bb) = true
    · have hb : p.1 = bb := by simpa using hk
      have hv : p.2 = v := by
        rw [mapFind?, @List.find?_cons_of_pos _ (fun q => q.1 == bb) p t hk] at h
        simpa using h
      have hnk : ∀ q ∈ t, (q.1 == bb) = false := by
        intro q hq
        rw [beq_eq_false_iff_ne]
        intro he
        exact hnd.1 (hb ▸ he ▸ List.mem_map_of_mem Prod.fst hq)
      rw [scanDistance, List.foldl_cons, if_pos hk]
      rw [scan_fold_no_key t bb p.2 hnk]
      exact hv
    · have ht : mapFind? t bb = some v := by
        rw [mapFind?, @List.find?_cons_of_neg _ (fun q => q.1 == bb) p t hk] at h
        exact h
      rw [scanDistance, List.foldl_cons, if_neg hk]
      exact ih v hnd.2 ht

theorem scanDistance_eq_neg_of_find_none (m : List (String × Int)) (bb : String)
    (h : mapFind? m bb = none) : scanDistance m bb = -1 := by
  apply scan_fold_no_key
  intro p hp
  simp only [mapFind?, Option.map_eq_none', List.find?_eq_none] at h
  simpa using h p hp

theorem mapFind?_mapInsert {α : Type} (m : List (String × α)) (k k' : String) (v : α) :
    mapFind? (mapInsert m k v) k' =
      match mapFind? m k' with
      | some w => some w
      | none => if k == k' then some v else none := by
  unfold mapInsert
  split
  · rename_i hs
    cases h : mapFind? m k' with
    | some w => simp
    | none =>
      have hkk : (k == k') = false := by
        rw [beq_eq_false_iff_ne]
        intro he
        rw [he] at hs
        rw [h] at hs
        simp at hs
      simp [hkk]
  · cases hf : m.find? (fun p => p.1 == k') with
    | some q =>
      have h : mapFind? m k' = some q.2 := by simp [mapFind?, hf]
      rw [h]
      simp [mapFind?, List.find?_append, hf]
    | none =>
      have h : mapFind? m k' = none := by simp [mapFind?, hf]
      rw [h]
      by_cases hkk : (k == k') = true
      · simp [mapFind?, List.find?_append, hf, hkk]
      · simp [mapFind?, List.find?_append, hf, hkk]

theorem mapInsert_keys_nodup {α : Type} (m : List (String × α)) (k : String) (v : α)
    (h : (m.map Prod.fst).Nodup) : ((mapInsert m k v).map Prod.fst).Nodup := by
  unfold mapInsert
  split
  · exact h
  · rename_i hns
    have hk : k ∉ m.map Prod.fst := by
      intro hmem
      rw [List.mem_map] at hmem
      obtain ⟨p, hp, hpk⟩ := hmem
      apply hns
      simp only [mapFind?, Option.isSome_map']
      rw [List.find?_isSome]
      exact ⟨p, hp, by simp [hpk]⟩
    rw [List.map_append, List.nodup_append]
    refine ⟨h, List.nodup_singleton k, ?_⟩
    intro a ha hb
    simp at hb
    exact hk (hb ▸ ha)

theorem load_nodup (lines : List String) :
    ∀ (m : List (String × Int)) (bbs : List String),
    (m.map Prod.fst).Nodup →
    (((lines.foldl loadDistanceStep (m, bbs)).1).map Prod.fst).Nodup := by
  induction lines with
  | nil => intro m bbs h; exact h
  | cons line rest ih =>
    intro m bbs h
    rw [List.foldl_cons]
    exact ih _ _ (mapInsert_keys_nodup m _ _ h)

theorem load_find_aux (bb : String) (lines : List String) :
    ∀ (m : List (String × Int)) (bbs : List String),
    mapFind? (lines.foldl loadDistanceStep (m, bbs)).1 bb =
      match mapFind? m bb with
      | some v => some v
      | none =>
        (lines.find? (fun l => (parseDistLine l).1 == bb)).map
          (fun l => storedDistOf (parseDistLine l).2) := by
  induction lines with
  | nil =>
    intro m bbs
    cases h : mapFind? m bb <;> simp [h]
  | cons line rest ih =>
    intro m bbs
    rw [List.foldl_cons]
    rw [ih]
    show (match mapFind? (mapInsert m (parseDistLine line).1
        (storedDistOf (parseDistLine line).2)) bb with
      | some v => some v
      | none =>
        (rest.find? (fun l => (parseDistLine l).1 == bb)).map
          (fun l => storedDistOf (parseDistLine l).2)) = _
    rw [mapFind?_mapInsert]
    cases h : mapFind? m bb with
    | some v => simp
    | none =>
      by_cases hkk : ((parseDistLine line).1 == bb) = true
      · simp [hkk, @List.find?_cons_of_pos _
          (fun l => (parseDistLine l).1 == bb) line rest hkk]
      · simp only [hkk, if_false]
        rw [@List.find?_cons_of_neg _
          (fun l => (parseDistLine l).1 == bb) line rest hkk]
        simp

/-- The distance the Phase-2 scan applies is always the value of the
*first* distance-file line carrying that identity: `emplace` never
overwrites, so later duplicate lines are ignored. -/
theorem appliedDistance_eq_firstFileDistance (lines : List String) (bb : String) :
    appliedDistance lines bb = firstFileDistance lines bb := by
  have hnd : (((loadDistance lines).1).map Prod.fst).Nodup :=
    load_nodup lines [] [] (by simp)
  have hf := load_find_aux bb lines [] []
  have hnone : mapFind? ([] : List (String × Int)) bb = none := rfl
  rw [hnone] at hf
  rw [appliedDistance, firstFileDistance]
  cases hc : lines.find? (fun l => (parseDistLine l).1 == bb) with
  | none =>
    have hn : mapFind? (loadDistance lines).1 bb = none := by
      rw [loadDistance, hf, hc]; rfl
    exact scanDistance_eq_neg_of_find_none _ _ hn
  | some l =>
    have hs : mapFind? (loadDistance lines).1 bb =
        some (storedDistOf (parseDistLine l).2) := by
      rw [loadDistance, hf, hc]; rfl
    exact scanDistance_eq_of_find _ _ _ hnd hs

theorem parseDecimal_den_ne_zero (s : String) : (parseDecimal s).2 ≠ 0 := by
  unfold parseDecimal
  exact pow_ne_zero _ (by norm_num)

/-- The natural-division computation of the stored distance agrees with the
C cast `(int)(100.0 * value)` on the exact rational value. -/
theorem storedDistOf_eq_cTrunc (p : Nat × Nat) (h : p.2 ≠ 0) :
    storedDistOf p = cTrunc (100 * ratOfDecimal p) := by
  have hq : (0 : ℚ) ≤ 100 * ratOfDecimal p := by
    unfold ratOfDecimal
    positivity
  rw [cTrunc, if_pos hq, storedDistOf]
  have hcast : (100 : ℚ) * ratOfDecimal p = ((100 * p.1 : ℕ) : ℚ) / ((p.2 : ℕ) : ℚ) := by
    unfold ratOfDecimal
    push_cast
    ring
  rw [hcast]
  rw [← Int.natCast_floor_eq_floor (by positivity)]
  rw [Nat.floor_div_eq_div]

/-! ## Supporting lemmas: block identities of the two phases -/

theorem p1InstrStep_bbName_of_ne (ts : List String) (st : P1Scan) (i : Instr)
    (h : st.bbName ≠ "") : (p1InstrStep ts st i).bbName = st.bbName := by
  have hb : (st.bbName == "") = false := by simpa using h
  unfold p1InstrStep
  split <;> simp only [hb, Bool.false_eq_true, if_false] <;> split <;> rfl

theorem p1_fold_bbName_of_ne (ts : List String) (instrs : List Instr) :
    ∀ st : P1Scan, st.bbName ≠ "" →
    (instrs.foldl (p1InstrStep ts) st).bbName = st.bbName := by
  induction instrs with
  | nil => intro st _; rfl
  | cons i rest ih =>
    intro st h
    rw [List.foldl_cons]
    rw [ih _ (by rw [p1InstrStep_bbName_of_ne ts st i h]; exact h)]
    exact p1InstrStep_bbName_of_ne ts st i h

/-- Core of the identity-stability argument: starting from a state that has
no block name yet and whose persisted location is unusable, the Phase-1
instruction fold names the block after the first instruction carrying a
non-empty file and nonzero line, provided that file has a non-empty
basename. -/
theorem p1_fold_bbName (ts : List String) (instrs : List Instr) :
    ∀ (st : P1Scan) (f : String) (l : Nat),
    st.bbName = "" →
    stripPath st.filename = st.filename →
    (st.filename = "" ∨ st.line = 0) →
    firstValidLoc instrs = some (f, l) →
    stripPath f ≠ "" →
    (instrs.foldl (p1InstrStep ts) st).bbName = stripPath f ++ ":" ++ toString l := by
  induction instrs with
  | nil =>
    intro st f l _ _ _ hfv _
    simp [firstValidLoc] at hfv
  | cons i rest ih =>
    intro st f l hbb hstrip hinv hfv hsf
    rw [List.foldl_cons]
    cases hdl : i.debugLoc with
    | none =>
      have hguard :
          (stripPath st.filename == "" || st.line == 0
            || isUsrPath (stripPath st.filename)) = true := by
        rcases hinv with h1 | h2
        · rw [h1, stripPath_empty]; simp
        · rw [h2]; simp
      have hstep : p1InstrStep ts st i =
          { st with filename := stripPath st.filename, line := st.line } := by
        simp only [p1InstrStep, hdl]
        rw [if_pos hguard]
      rw [hstep]
      have hfv2 : firstValidLoc (i :: rest) = firstValidLoc rest := by
        simp only [firstValidLoc, hdl]
      rw [hfv2] at hfv
      refine ih _ f l ?_ ?_ ?_ hfv hsf
      · exact hbb
      · show stripPath (stripPath st.filename) = stripPath st.filename
        exact stripPath_idem st.filename
      · show stripPath st.filename = "" ∨ st.line = 0
        rcases hinv with h1 | h2
        · exact Or.inl (by rw [h1, stripPath_empty])
        · exact Or.inr h2
    | some fl =>
      by_cases hval : (fl.1 == "" || fl.2 == 0) = true
      · have hguard :
            (stripPath fl.1 == "" || fl.2 == 0 || isUsrPath (stripPath fl.1)) = true := by
          rcases Bool.or_eq_true_iff.mp hval with h1 | h2
          · have : fl.1 = "" := by simpa using h1
            rw [this, stripPath_empty]; simp
          · rw [Bool.or_eq_true_iff]; exact Or.inl (Bool.or_eq_true_iff.mpr (Or.inr h2))
        have hstep : p1InstrStep ts st i =
            { st with filename := stripPath fl.1, line := fl.2 } := by
          simp only [p1InstrStep, hdl]
          rw [if_pos hguard]
        rw [hstep]
        have hfv2 : firstValidLoc (i :: rest) = firstValidLoc rest := by
          simp only [firstValidLoc, hdl]
          exact if_pos hval
        rw [hfv2] at hfv
        refine ih _ f l ?_ ?_ ?_ hfv hsf
        · exact hbb
        · show stripPath (stripPath fl.1) = stripPath fl.1
          exact stripPath_idem fl.1
        · show stripPath fl.1 = "" ∨ fl.2 = 0
          rcases Bool.or_eq_true_iff.mp hval with h1 | h2
          · refine Or.inl ?_
            have hf0 : fl.1 = "" := by simpa using h1
            rw [hf0, stripPath_empty]
          · exact Or.inr (by simpa using h2)
      · have hfl : fl = (f, l) := by
          have hfv2 : firstValidLoc (i :: rest) = some fl := by
            unfold firstValidLoc; rw [hdl]; exact if_neg hval
          rw [hfv2] at hfv
          exact Option.some.inj hfv.symm |>.symm
        have hguard :
            (stripPath fl.1 == "" || fl.2 == 0 || isUsrPath (stripPath fl.1)) = false := by
          rw [Bool.or_eq_false_iff, Bool.or_eq_false_iff]
          refine ⟨⟨?_, ?_⟩, isUsrPath_stripPath fl.1⟩
          · rw [beq_eq_false_iff_ne]
            rw [hfl]
            exact hsf
          · rcases Bool.or_eq_false_iff.mp (Bool.eq_false_iff.mpr hval) with ⟨_, h2⟩
            exact h2
        have hb : (st.bbName == "") = true := by simpa using hbb
        have hstep : (p1InstrStep ts st i).bbName =
            stripPath (stripPath fl.1) ++ ":" ++ toString fl.2 := by
          simp only [p1InstrStep, hdl]
          rw [if_neg (by rw [hguard]; exact Bool.false_ne_true)]
          simp [hb]
        rw [p1_fold_bbName_of_ne ts rest _ ?_]
        · rw [hstep, stripPath_idem, hfl]
        · rw [hstep, stripPath_idem]
          exact append_colon_ne_empty _ _

theorem phase2BBName_eq_firstValid (instrs : List Instr) :
    phase2BBName instrs =
      match firstValidLoc instrs with
      | some fl => stripPath fl.1 ++ ":" ++ toString fl.2
      | none => "" := by
  induction instrs with
  | nil => rfl
  | cons i rest ih =>
    cases hdl : i.debugLoc with
    | none =>
      simp only [phase2BBName, firstValidLoc, hdl]
      exact ih
    | some fl =>
      simp only [phase2BBName, firstValidLoc, hdl]
      split
      · exact ih
      · rfl

/-- Identity stability between the two phases, for blocks whose first
usable debug location has a non-empty basename. -/
theorem bbNames_agree (instrs : List Instr) (f : String) (l : Nat)
    (h1 : firstValidLoc instrs = some (f, l)) (h2 : stripPath f ≠ "") :
    phase1BBName instrs = stripPath f ++ ":" ++ toString l ∧
    phase2BBName instrs = stripPath f ++ ":" ++ toString l := by
  constructor
  · rw [phase1BBName, p1Block]
    exact p1_fold_bbName [] instrs { isTarget := false } f l rfl rfl (Or.inl rfl) h1 h2
  · rw [phase2BBName_eq_firstValid, h1]

/-! ## Supporting lemmas: monitoring instrumentation -/

theorem countHooks_append (a b : List Effect) :
    countHooks (a ++ b) = countHooks a + countHooks b := by
  simp [countHooks, List.filter_append]

/-- The quantity that never increases along the monitoring loop: hooks
emitted so far plus the remaining budget of the `is_traversed` flag. -/
def monMeasure (st : Bool × List Effect) : Nat :=
  countHooks st.2 + (if st.1 then 0 else 1)

theorem monStep_measure (ctx : MonCtx) (st : Bool × List Effect) (i : Instr) :
    monMeasure (monStep ctx st i) ≤ monMeasure st := by
  obtain ⟨trav, effs⟩ := st
  unfold monStep
  cases locName i with
  | none => exact Nat.le_refl _
  | some loc =>
    by_cases hR : ctx.is_RERS = true
    · simp only [hR, if_true]
      by_cases ht : trav = true
      · subst ht
        simp [monMeasure, countHooks_append, countHooks, isHookInjection]
        all_goals intro a ha1 ha2 ha; subst ha; rfl
      · have ht2 : trav = false := by simpa using ht
        subst ht2
        by_cases hf : (mapFind? ctx.loc_to_revt loc).isSome = true
        · simp only [hf, Bool.not_false, Bool.and_true, if_true]
          simp [monMeasure, countHooks_append, countHooks, isHookInjection]
          all_goals intro a ha1 ha2 ha; subst ha; rfl
        · simp [monMeasure, countHooks_append, countHooks, isHookInjection, hf]
          all_goals intro a ha1 ha2 ha; subst ha; rfl
    · have hR2 : ctx.is_RERS = false := by simpa using hR
      simp only [hR2, Bool.false_eq_true, if_false]
      by_cases ht : trav = true
      · subst ht
        simp [monMeasure, countHooks_append, countHooks, isHookInjection, hR2]
        all_goals intro a ha1 ha2 ha; subst ha; rfl
      · have ht2 : trav = false := by simpa using ht
        subst ht2
        by_cases hf : (mapFind? ctx.loc_to_pevt loc).isSome = true
        · simp only [hf, Bool.not_false, Bool.and_true, if_true]
          simp [monMeasure, countHooks_append, countHooks, isHookInjection, hR2]
          all_goals intro a ha1 ha2 ha; subst ha; rfl
        · simp [monMeasure, countHooks_append, countHooks, isHookInjection, hf, hR2]
          all_goals intro a ha1 ha2 ha; subst ha; rfl

theorem monFold_measure (ctx : MonCtx) (instrs : List Instr) :
    ∀ st : Bool × List Effect,
    monMeasure (instrs.foldl (monStep ctx) st) ≤ monMeasure st := by
  induction instrs with
  | nil => intro st; exact Nat.le_refl _
  | cons i rest ih =>
    intro st
    rw [List.foldl_cons]
    exact le_trans (ih _) (monStep_measure ctx st i)

theorem countHooks_monBlock_le_one (ctx : MonCtx) (instrs : List Instr) :
    countHooks (monBlock ctx instrs) ≤ 1 := by
  have h2 := monFold_measure ctx instrs (false, [])
  have h3 : monMeasure (false, ([] : List Effect)) = 1 := rfl
  rw [h3] at h2
  unfold monMeasure at h2
  unfold monBlock
  split at h2 <;> omega

theorem isHook_imp_isMon (e : Effect) (h : isHookInjection e = true) :
    isMonEffect e = true := by
  cases e <;> simp_all [isHookInjection, isMonEffect]

theorem isProp_imp_isMon (e : Effect) (h : isPropEffect e = true) :
    isMonEffect e = true := by
  cases e <;> simp_all [isPropEffect, isMonEffect]

/-- In RERS mode the monitoring loop never emits a proposition handler. -/
theorem monFold_no_prop (ctx : MonCtx) (h : ctx.is_RERS = true) (instrs : List Instr) :
    ∀ st : Bool × List Effect,
    st.2.filter isPropEffect = [] →
    ((instrs.foldl (monStep ctx) st).2).filter isPropEffect = [] := by
  induction instrs with
  | nil => intro st hst; exact hst
  | cons i rest ih =>
    intro st hst
    rw [List.foldl_cons]
    apply ih
    unfold monStep
    cases locName i with
    | none => exact hst
    | some loc =>
      simp only [h, if_true]
      show ((st.2 ++ _ ++ _).filter isPropEffect = [])
      rw [List.filter_append, List.filter_append, hst, List.nil_append,
        List.append_eq_nil]
      constructor
      · rw [apply_ite Prod.snd]
        split <;> simp [isPropEffect]
      · split <;> simp [isPropEffect]

theorem monBlock_no_prop (ctx : MonCtx) (h : ctx.is_RERS = true) (instrs : List Instr) :
    (monBlock ctx instrs).filter isPropEffect = [] :=
  monFold_no_prop ctx h instrs (false, []) rfl

/-- The coverage/distance tail contains no monitoring effect. -/
theorem processBlockTail_no_mon (ctx : P2Ctx) (bb : String) (d : Int) (rng : RNG) :
    ∀ e ∈ (processBlockTail ctx bb d rng).1, isMonEffect e = false := by
  intro e he
  simp only [processBlockTail] at he
  rw [apply_ite Prod.fst] at he
  split at he
  · simp at he
  · rcases List.mem_cons.mp he with h1 | h2
    · rw [h1]; rfl
    · split at h2
      · rw [List.mem_singleton.mp h2]; rfl
      · simp at h2

/-- The coverage/distance tail contains no event hook. -/
theorem processBlockTail_no_hook (ctx : P2Ctx) (bb : String) (d : Int) (rng : RNG) :
    countHooks (processBlockTail ctx bb d rng).1 = 0 := by
  have h := processBlockTail_no_mon ctx bb d rng
  rw [countHooks, List.length_eq_zero, List.filter_eq_nil]
  intro e he hhook
  have := isHook_imp_isMon e hhook
  rw [h e he] at this
  exact Bool.false_ne_true this

/-- Decomposition of the effects of one Phase-2 block: either the selective
skip fired and nothing was emitted, or the effects are the monitoring
effects followed by the coverage/distance tail. -/
theorem processBlock_decomp (ctx : P2Ctx) (fname : String) (hasArg : Bool)
    (instrs : List Instr) (rng : RNG) :
    (processBlock ctx fname hasArg instrs rng).1 = [] ∨
    ∃ (bb : String) (d : Int) (rng1 : RNG),
      (processBlock ctx fname hasArg instrs rng).1 =
        (if ctx.is_ltl then
          monBlock ⟨ctx.is_RERS, ctx.loc_to_revt, ctx.loc_to_pevt, fname, hasArg⟩ instrs
         else []) ++ (processBlockTail ctx bb d rng1).1 := by
  by_cases hskip : (ctx.is_aflgo
      && ((if ctx.is_aflgo then phase2BBName instrs else "") != "")
      && !(ctx.basic_blocks.contains (if ctx.is_aflgo then phase2BBName instrs else ""))
      && ctx.is_selective) = true
  · left
    simp only [processBlock]
    rw [if_pos hskip]
  · right
    simp only [processBlock]
    rw [if_neg hskip]
    exact ⟨_, _, _, rfl⟩

/-- With monitoring off, a Phase-2 block emits no monitoring effect. -/
theorem processBlock_no_mon (ctx : P2Ctx) (h : ctx.is_ltl = false)
    (fname : String) (hasArg : Bool) (instrs : List Instr) (rng : RNG) :
    ∀ e ∈ (processBlock ctx fname hasArg instrs rng).1, isMonEffect e = false := by
  intro e he
  rcases processBlock_decomp ctx fname hasArg instrs rng with h1 | ⟨bb, d, rng1, h2⟩
  · rw [h1] at he; simp at he
  · rw [h2] at he
    simp only [h, Bool.false_eq_true, if_false, List.nil_append] at he
    exact processBlockTail_no_mon ctx bb d rng1 e he

theorem processFunc_no_mon (ctx : P2Ctx) (h : ctx.is_ltl = false) (F : Func) (rng : RNG) :
    ∀ e ∈ (processFunc ctx F rng).1, isMonEffect e = false := by
  unfold processFunc
  suffices hgen : ∀ (bbs : List (List Instr)) (acc : List Effect × RNG),
      (∀ e ∈ acc.1, isMonEffect e = false) →
      ∀ e ∈ (bbs.foldl (fun acc bb =>
        let er := processBlock ctx F.name F.hasArg bb acc.2
        (acc.1 ++ er.1, er.2)) acc).1, isMonEffect e = false by
    exact hgen F.blocks ([], rng) (by simp)
  intro bbs
  induction bbs with
  | nil => intro acc hacc; exact hacc
  | cons bb rest ih =>
    intro acc hacc
    rw [List.foldl_cons]
    apply ih
    intro e he
    rcases List.mem_append.mp he with h1 | h2
    · exact hacc e h1
    · exact processBlock_no_mon ctx h F.name F.hasArg bb acc.2 e h2

theorem runPhase2_no_mon (ctx : P2Ctx) (h : ctx.is_ltl = false)
    (mod : List Func) (rng : RNG) :
    ∀ e ∈ (runPhase2 ctx mod rng).1, isMonEffect e = false := by
  unfold runPhase2
  suffices hgen : ∀ (fns : List Func) (acc : List Effect × RNG),
      (∀ e ∈ acc.1, isMonEffect e = false) →
      ∀ e ∈ (fns.foldl (fun acc F =>
        let er := processFunc ctx F acc.2
        (acc.1 ++ er.1, er.2)) acc).1, isMonEffect e = false by
    exact hgen mod ([], rng) (by simp)
  intro fns
  induction fns with
  | nil => intro acc hacc; exact hacc
  | cons F rest ih =>
    intro acc hacc
    rw [List.foldl_cons]
    apply ih
    intro e he
    rcases List.mem_append.mp he with h1 | h2
    · exact hacc e h1
    · exact processFunc_no_mon ctx h F acc.2 e h2

theorem p1Func_no_mon (outDir : String) (ts : List String) (F : Func) :
    ∀ e ∈ p1Func outDir ts F, isMonEffect e = false := by
  unfold p1Func
  split
  · intro e he; simp at he
  · suffices hgen : ∀ (bbs : List (List Instr)) (acc : Bool × Bool × List Effect),
        (∀ e ∈ acc.2.2, isMonEffect e = false) →
        ∀ e ∈ (bbs.foldl (fun (acc : Bool × Bool × List Effect) bb =>
          let scan := p1Block ts acc.1 bb
          let effs := acc.2.2 ++
            scan.calls.map (fun l => Effect.write (outDir ++ "/BBcalls.txt") l)
          if scan.bbName != "" then
            (scan.isTarget, true,
             effs ++ [Effect.write (outDir ++ "/BBnames.txt") (scan.bbName ++ ":")])
          else (scan.isTarget, acc.2.1, effs)) acc).2.2, isMonEffect e = false by
      intro e he
      simp only [] at he
      split at he
      · rcases List.mem_append.mp he with h1 | h2
        · rcases List.mem_append.mp h1 with h3 | h4
          · rcases List.mem_append.mp h3 with h5 | h6
            · exact hgen F.blocks (false, false, []) (by simp) e h5
            · rw [List.mem_singleton.mp h6]; rfl
          · split at h4
            · rw [List.mem_singleton.mp h4]; rfl
            · simp at h4
        · rw [List.mem_singleton.mp h2]; rfl
      · exact hgen F.blocks (false, false, []) (by simp) e he
    intro bbs
    induction bbs with
    | nil => intro acc hacc; exact hacc
    | cons bb rest ih =>
      intro acc hacc
      rw [List.foldl_cons]
      apply ih
      intro e he
      have hstep : ∀ x ∈ acc.2.2 ++
          (p1Block ts acc.1 bb).calls.map
            (fun l => Effect.write (outDir ++ "/BBcalls.txt") l),
          isMonEffect x = false := by
        intro x hx
        rcases List.mem_append.mp hx with h1 | h2
        · exact hacc x h1
        · rcases List.mem_map.mp h2 with ⟨l, _, hl⟩
          rw [← hl]; rfl
      simp only [] at he
      split at he
      · rcases List.mem_append.mp he with h1 | h2
        · exact hstep e h1
        · rw [List.mem_singleton.mp h2]; rfl
      · exact hstep e he

theorem runPhase1_no_mon (outDir : String) (ts : List String) (mod : List Func) :
    ∀ e ∈ runPhase1 outDir ts mod, isMonEffect e = false := by
  intro e he
  unfold runPhase1 at he
  rcases List.mem_cons.mp he with h1 | h2
  · rw [h1]; rfl
  · rcases List.mem_flatMap.mp h2 with ⟨F, _, hF⟩
    exact p1Func_no_mon outDir ts F e hF

/-! ## Claim C1 -/

/-- C1, counterexample: in a distance file where identity `a.c:1` appears
with value `0.1` and then value `0.2`, the distance applied in Phase 2 is
`10` — the value of the *first* such line — while the last line's stored
value is `20`; the claim's "last write wins" fails here. -/
theorem c1_counterexample :
    appliedDistance ["a.c:1,0.1", "a.c:1,0.2"] "a.c:1" = 10 ∧
    storedDistOf (parseDistLine "a.c:1,0.2").2 = 20 ∧
    appliedDistance ["a.c:1,0.1", "a.c:1,0.2"] "a.c:1" ≠
      storedDistOf (parseDistLine "a.c:1,0.2").2 := by
  refine ⟨by decide, by decide, by decide⟩

/-- C1, amended: when the same BlockIdentity appears on multiple distance
file lines, the distance applied to a matching block in Phase 2 equals the
value of the *first* such line (`std::map::emplace` never overwrites an
existing key, so the later duplicates are dropped at load time and the
in-loop scan finds only the first line's entry). -/
theorem c1_theorem (lines : List String) (bb : String) :
    appliedDistance lines bb = firstFileDistance lines bb :=
  appliedDistance_eq_firstFileDistance lines bb

/-! ## Claim C2 -/

/-- C2, counterexample: for a block whose first debug-annotated instruction
carries the non-empty file `"dir/"` (whose basename is empty) and line 5,
Phase 2 derives the identity `":5"` while Phase 1 rejects the instruction
(its emptiness test runs after basename stripping) and derives no identity
at all, so the two phases disagree. -/
theorem c2_counterexample :
    firstValidLoc [({ debugLoc := some ("dir/", 5) } : Instr)] = some ("dir/", 5) ∧
    phase2BBName [({ debugLoc := some ("dir/", 5) } : Instr)] = ":5" ∧
    phase1BBName [({ debugLoc := some ("dir/", 5) } : Instr)] = "" ∧
    phase1BBName [({ debugLoc := some ("dir/", 5) } : Instr)] ≠
      phase2BBName [({ debugLoc := some ("dir/", 5) } : Instr)] := by
  refine ⟨by decide, by decide, by decide, by decide⟩

/-- C2, amended: for every basic block whose first instruction with
non-empty file and nonzero line metadata maps to file `f` and line `l`,
*provided the basename of `f` is non-empty*, the BlockIdentity computed by
the Phase 1 traversal equals the one computed independently by the Phase 2
traversal, namely `basename(f) ++ ":" ++ l`. -/
theorem c2_theorem (instrs : List Instr) (f : String) (l : Nat)
    (h1 : firstValidLoc instrs = some (f, l)) (h2 : stripPath f ≠ "") :
    phase1BBName instrs = phase2BBName instrs ∧
    phase2BBName instrs = stripPath f ++ ":" ++ toString l := by
  obtain ⟨ha, hb⟩ := bbNames_agree instrs f l h1 h2
  exact ⟨ha.trans hb.symm, hb⟩

theorem c2_witness :
    phase1BBName [({ debugLoc := some ("src/foo.c", 10) } : Instr)] =
      phase2BBName [({ debugLoc := some ("src/foo.c", 10) } : Instr)] ∧
    phase2BBName [({ debugLoc := some ("src/foo.c", 10) } : Instr)] = "foo.c:10" := by
  have h := c2_theorem [{ debugLoc := some ("src/foo.c", 10) }] "src/foo.c" 10
    (by decide) (by decide)
  refine ⟨h.1, ?_⟩
  rw [h.2]
  decide

/-! ## Claim C5 -/

/-- C5, counterexample: the line `"foo.c:10,0.375"` (0.375 is an exactly
representable binary double, so the C pipeline computes exactly) stores
`37 = trunc(37.5)`, not `round(37.5) = 38`: the stored value is the
truncation, not the rounding, of `100 * floatDistance`. -/
theorem c5_counterexample :
    appliedDistance ["foo.c:10,0.375"] "foo.c:10" = 37 ∧
    parseDecimal "0.375" = (375, 1000) ∧
    (round (100 * ratOfDecimal (375, 1000)) : Int) = 38 := by
  refine ⟨by decide, by decide, ?_⟩
  have h1 : (100 : ℚ) * ratOfDecimal (375, 1000) = 75 / 2 := by
    unfold ratOfDecimal
    norm_num
  have h2 : ((75 : ℚ) / 2 + 1 / 2) = 38 := by norm_num
  rw [h1, round_eq, h2]
  simp

/-- C5, amended: for every distance-file line
`<blockIdentity>,<floatDistance>`, the stored integer distance equals
`trunc(100 * floatDistance)` (the C `(int)` cast truncates toward zero);
in particular the line `"foo.c:10,0.37"` stores 37 for identity
`"foo.c:10"`. -/
theorem c5_theorem :
    (∀ l : String,
      appliedDistance [l] (parseDistLine l).1 =
        cTrunc (100 * ratOfDecimal (parseDistLine l).2)) ∧
    appliedDistance ["foo.c:10,0.37"] "foo.c:10" = 37 := by
  constructor
  · intro l
    have h1 : (loadDistance [l]).1 =
        [((parseDistLine l).1, storedDistOf (parseDistLine l).2)] := by
      simp [loadDistance, loadDistanceStep, mapInsert, mapFind?]
    rw [appliedDistance, h1, scanDistance]
    simp
    exact storedDistOf_eq_cTrunc _ (parseDecimal_den_ne_zero _)
  · decide

/-! ## Claim C6 -/

/-- C6, counterexample: an instruction whose source file is
`/usr/include/stdio.h` *does* contribute the BlockIdentity `stdio.h:10` in
both Phase 1 and Phase 2 — the reserved-prefix rejection never applies (in
Phase 1 it tests the already-stripped basename; Phase 2 has no such test). -/
theorem c6_counterexample :
    isUsrPath "/usr/include/stdio.h" = true ∧
    phase1BBName [({ debugLoc := some ("/usr/include/stdio.h", 10) } : Instr)] =
      "stdio.h:10" ∧
    phase2BBName [({ debugLoc := some ("/usr/include/stdio.h", 10) } : Instr)] =
      "stdio.h:10" ∧
    phase1BBName [({ debugLoc := some ("/usr/include/stdio.h", 10) } : Instr)] ≠ "" := by
  refine ⟨by decide, by decide, by decide, by decide⟩

/-- C6, amended: the Location Identity Resolver rejects no instruction on
account of the `/usr/` prefix: the Phase-1 test compares the
already-stripped basename against `/usr/` (and a basename can never start
with a path separator), and Phase 2 performs no such test at all; an
instruction with any non-empty-basename file and nonzero line — including
one under `/usr/` — contributes `basename(f):l` in both phases. -/
theorem c6_theorem (f : String) (l : Nat) (h1 : stripPath f ≠ "") (h2 : l ≠ 0) :
    isUsrPath (stripPath f) = false ∧
    phase1BBName [({ debugLoc := some (f, l) } : Instr)] =
      stripPath f ++ ":" ++ toString l ∧
    phase2BBName [({ debugLoc := some (f, l) } : Instr)] =
      stripPath f ++ ":" ++ toString l := by
  have hf : (f == "") = false := by
    rw [beq_eq_false_iff_ne]
    intro he
    rw [he] at h1
    exact h1 stripPath_empty
  have hl : (l == 0) = false := by simpa using h2
  have hfv : firstValidLoc [({ debugLoc := some (f, l) } : Instr)] = some (f, l) := by
    simp [firstValidLoc, hf, hl]
  obtain ⟨ha, hb⟩ := bbNames_agree _ f l hfv h1
  exact ⟨isUsrPath_stripPath f, ha, hb⟩

theorem c6_witness :
    isUsrPath (stripPath "/usr/include/stdio.h") = false ∧
    phase1BBName [({ debugLoc := some ("/usr/include/stdio.h", 10) } : Instr)] =
      "stdio.h:10" := by
  have h := c6_theorem "/usr/include/stdio.h" 10 (by decide) (by decide)
  refine ⟨h.1, ?_⟩
  rw [h.2.1]
  decide

/-! ## Claim C3 -/

/-- C3, counterexample: selective mode on, RERS monitoring on, a block
whose resolved identity `a.c:5` matches the automaton event map but is
absent from the distance map's known-block list — the whole run injects
*nothing* for it: the selective `continue` (line 505) fires before the
monitoring loop (line 522), so the monitoring hooks are skipped too,
contrary to the claim that they are still processed. -/
theorem c3_counterexample :
    c3run.is_ltl_fuzzing = true ∧
    c3run.is_RERS_fuzzing = true ∧
    mapFind? (loadREvents ["a.c:5:3"]) "a.c:5" = some 3 ∧
    phase2BBName [({ debugLoc := some ("a.c", 5) } : Instr)] = "a.c:5" ∧
    (loadDistance ["b.c:1,0.5"]).2.contains "a.c:5" = false ∧
    c3run.effects = [] := by
  refine ⟨by decide, by decide, by decide, by decide, by decide, by decide⟩

/-- C3, amended: for a block whose resolved identity is absent from the
known-block list while selective mode is on, the Phase-2 loop `continue`s
before the monitoring loop, so *no* per-instruction monitoring processing
and no injection of any kind happens for that block: the selective skip
removes the monitoring hooks along with the coverage/distance injection. -/
theorem c3_theorem (ctx : P2Ctx) (fname : String) (hasArg : Bool)
    (instrs : List Instr) (rng : RNG)
    (h1 : ctx.is_aflgo = true) (h2 : ctx.is_selective = true)
    (h3 : phase2BBName instrs ≠ "")
    (h4 : ctx.basic_blocks.contains (phase2BBName instrs) = false) :
    processBlock ctx fname hasArg instrs rng = ([], rng) := by
  have hskip : (ctx.is_aflgo
      && ((if ctx.is_aflgo then phase2BBName instrs else "") != "")
      && !(ctx.basic_blocks.contains (if ctx.is_aflgo then phase2BBName instrs else ""))
      && ctx.is_selective) = true := by
    have h4m : phase2BBName instrs ∉ ctx.basic_blocks := by simpa using h4
    simp [h1, h2, h3, h4m]
  simp only [processBlock]
  rw [if_pos hskip]

theorem c3_witness :
    processBlock c3ctx "f" true [({ debugLoc := some ("a.c", 5) } : Instr)] [] =
      ([], []) :=
  c3_theorem c3ctx "f" true [({ debugLoc := some ("a.c", 5) } : Instr)] []
    rfl rfl (by decide) (by decide)

/-! ## Claim C4 -/

/-- C4: supplying both a target-location file and a distance file is a
fatal configuration error detected first thing in `runOnModule`: the run
aborts with the fatal message and performs no effect — no instrumentation,
no file write. -/
theorem c4_theorem (cfg : Cfg) (env : Env) (fs : FS) (mod : List Func) (rng : RNG)
    (h1 : cfg.targetsFile.isSome = true) (h2 : cfg.distanceFile.isSome = true) :
    runOnModule cfg env fs mod rng =
      { effects := [], fatal := some "Cannot specify both -targets and -distance!" } := by
  simp only [runOnModule]
  rw [if_pos (by rw [h1, h2]; rfl)]

theorem c4_witness :
    runOnModule { targetsFile := some "t", distanceFile := some "d" } {} ⟨[]⟩ [] [] =
      { effects := [], fatal := some "Cannot specify both -targets and -distance!" } :=
  c4_theorem { targetsFile := some "t", distanceFile := some "d" } {} ⟨[]⟩ [] [] rfl rfl

/-! ## Claim C7 -/

/-- C7: regardless of how many instructions of a block match an event map,
at most one automata/protocol monitoring-hook injection happens per block
in one compilation: the per-block `is_traversed` flag blocks any second
injection. -/
theorem c7_theorem (ctx : P2Ctx) (fname : String) (hasArg : Bool)
    (instrs : List Instr) (rng : RNG) :
    countHooks (processBlock ctx fname hasArg instrs rng).1 ≤ 1 := by
  rcases processBlock_decomp ctx fname hasArg instrs rng with h1 | ⟨bb, d, rng1, h2⟩
  · rw [h1]
    exact Nat.zero_le 1
  · rw [h2, countHooks_append, processBlockTail_no_hook, Nat.add_zero]
    split
    · exact countHooks_monBlock_le_one _ instrs
    · exact Nat.zero_le 1

/-! ## Claim C8 -/

/-- C8, counterexample: with both event files supplied and loaded, a block
whose identity `a.c:5` appears only in the ProtocolEventMap receives *no*
event hook at all — the per-instruction branch tests the global
`is_RERS_fuzzing` flag, not which map hit, so automaton mode wins for every
block and the protocol map is never consulted; the claim that such a block
receives the protocol-mode hooks fails. -/
theorem c8_counterexample :
    c8run.is_RERS_fuzzing = true ∧
    c8run.is_protocol_fuzzing = true ∧
    mapFind? (loadPEvents ["a.c:5:p"]) "a.c:5" = some "p" ∧
    mapFind? (loadREvents ["x.c:1:3"]) "a.c:5" = none ∧
    c8run.effects.filter isPropEffect = [] ∧
    c8run.effects.filter isHookInjection = [] := by
  refine ⟨by decide, by decide, by decide, by decide, by decide, by decide⟩

/-- C8, amended: when the automaton event map is loaded
(`is_RERS_fuzzing`), every block takes the automaton branch: the protocol
map is never consulted and no protocol-mode hook is ever injected, even
for blocks whose identity appears only in the ProtocolEventMap; automaton
precedence is global per compilation, not per block. -/
theorem c8_theorem (ctx : P2Ctx) (fname : String) (hasArg : Bool)
    (instrs : List Instr) (rng : RNG) (h : ctx.is_RERS = true) :
    (processBlock ctx fname hasArg instrs rng).1.filter isPropEffect = [] := by
  rcases processBlock_decomp ctx fname hasArg instrs rng with h1 | ⟨bb, d, rng1, h2⟩
  · rw [h1]; rfl
  · rw [h2, List.filter_append]
    have htail : (processBlockTail ctx bb d rng1).1.filter isPropEffect = [] := by
      rw [List.filter_eq_nil]
      intro e he hprop
      have hm := isProp_imp_isMon e hprop
      rw [processBlockTail_no_mon ctx bb d rng1 e he] at hm
      exact Bool.false_ne_true hm
    rw [htail, List.append_nil]
    split
    · exact monBlock_no_prop _ h instrs
    · rfl

theorem c8_witness :
    (processBlock c8ctx "f" false [({ debugLoc := some ("a.c", 5) } : Instr)]
      []).1.filter isPropEffect = [] :=
  c8_theorem c8ctx "f" false [({ debugLoc := some ("a.c", 5) } : Instr)] [] rfl

/-! ## Claim C9 -/

/-- C9, counterexample: the selective flag set to the out-of-range value
`"2"` is *not* fatal: `sscanf` succeeds, the value is accepted as-is, and
the run completes without a fatal outcome, contrary to the claim that a
selective value other than 0 or 1 aborts the transformation. -/
theorem c9_counterexample :
    checkSelectiveVal (some "2") = some 2 ∧
    (runOnModule {} { aflgoSelective := some "2" } ⟨[]⟩ [] []).fatal = none := by
  refine ⟨by decide, by decide⟩

/-- C9, amended: a ratio value (`AFL_INST_RATIO` / `AFLGO_INST_RATIO`) is
fatal when non-numeric or out of range (0 or above 100); the selective
flag is fatal only when non-numeric — any parsed number, including values
other than 0 and 1, is accepted. -/
theorem c9_theorem :
    (∀ s : String, parseUInt s = none →
      checkRatioVal (some s) = none ∧ checkSelectiveVal (some s) = none) ∧
    (∀ (s : String) (n : Nat), parseUInt s = some n → (n = 0 ∨ 100 < n) →
      checkRatioVal (some s) = none) ∧
    (∀ (s : String) (n : Nat), parseUInt s = some n →
      checkSelectiveVal (some s) = some n) ∧
    (∀ (s : String) (env : Env) (fs : FS) (mod : List Func) (rng : RNG),
      parseUInt s = none → env.aflInstRatio = some s →
      (runOnModule {} env fs mod rng).fatal =
        some "Bad value of AFL_INST_RATIO (must be between 1 and 100)") := by
  refine ⟨?_, ?_, ?_, ?_⟩
  · intro s hs
    constructor
    · simp [checkRatioVal, hs]
    · simp [checkSelectiveVal, hs]
  · intro s n hs hn
    simp [checkRatioVal, hs, hn]
  · intro s n hs
    simp [checkSelectiveVal, hs]
  · intro s env fs mod rng hs he
    have hchk : runEnvChecks env =
        .error "Bad value of AFL_INST_RATIO (must be between 1 and 100)" := by
      rw [runEnvChecks, he]
      simp [checkRatioVal, hs]
    simp [runOnModule, hchk]

theorem c9_witness :
    checkRatioVal (some "abc") = none ∧
    checkRatioVal (some "150") = none ∧
    checkSelectiveVal (some "2") = some 2 ∧
    (runOnModule {} { aflInstRatio := some "abc" } ⟨[]⟩ [] []).fatal =
      some "Bad value of AFL_INST_RATIO (must be between 1 and 100)" :=
  ⟨(c9_theorem.1 "abc" (by decide)).1,
   c9_theorem.2.1 "150" 150 (by decide) (by decide),
   c9_theorem.2.2.1 "2" 2 (by decide),
   c9_theorem.2.2.2 "abc" { aflInstRatio := some "abc" } ⟨[]⟩ [] []
     (by decide) rfl⟩

/-! ## Claim C10 -/

/-- When neither event file is supplied, the monitoring flags stay off and
the run injects no monitoring effect. -/
theorem runOnModule_no_events (cfg : Cfg) (env : Env) (fs : FS) (mod : List Func)
    (rng : RNG) (h1 : cfg.reventsFile = none) (h2 : cfg.peventsFile = none) :
    (runOnModule cfg env fs mod rng).is_RERS_fuzzing = false ∧
    (runOnModule cfg env fs mod rng).is_protocol_fuzzing = false ∧
    (runOnModule cfg env fs mod rng).is_ltl_fuzzing = false ∧
    ∀ e ∈ (runOnModule cfg env fs mod rng).effects, isMonEffect e = false := by
  unfold runOnModule
  rw [h1, h2]
  split
  · exact ⟨rfl, rfl, rfl, fun e he => by simp at he⟩
  · cases htf : cfg.targetsFile with
    | some tf =>
      simp only []
      split
      · exact ⟨rfl, rfl, rfl, fun e he => by simp at he⟩
      · cases henv : runEnvChecks env with
        | error msg => exact ⟨rfl, rfl, rfl, fun e he => by simp at he⟩
        | ok v => exact ⟨rfl, rfl, rfl, runPhase1_no_mon _ _ mod⟩
    | none =>
      simp only []
      cases hdf : cfg.distanceFile with
      | some df =>
        simp only []
        cases hread : fs.read? df with
        | none => exact ⟨rfl, rfl, rfl, fun e he => by simp at he⟩
        | some lines =>
          cases henv : runEnvChecks env with
          | error msg => exact ⟨rfl, rfl, rfl, fun e he => by simp at he⟩
          | ok v => exact ⟨rfl, rfl, rfl, runPhase2_no_mon _ rfl mod rng⟩
      | none =>
        cases henv : runEnvChecks env with
        | error msg => exact ⟨rfl, rfl, rfl, fun e he => by simp at he⟩
        | ok v => exact ⟨rfl, rfl, rfl, runPhase2_no_mon _ rfl mod rng⟩

/-- Supplying an event file that cannot be used (no distance file, or the
file cannot be opened) changes nothing: the run is identical to one with
the event file not supplied at all — in particular no error is raised. -/
theorem runOnModule_events_erased (cfg : Cfg) (env : Env) (fs : FS) (mod : List Func)
    (rng : RNG)
    (hr : ∀ p, cfg.reventsFile = some p → cfg.distanceFile = none ∨ fs.read? p = none)
    (hp : ∀ p, cfg.peventsFile = some p → cfg.distanceFile = none ∨ fs.read? p = none) :
    runOnModule cfg env fs mod rng =
      runOnModule { cfg with reventsFile := none, peventsFile := none } env fs mod rng := by
  unfold runOnModule
  simp only []
  cases hdf : cfg.distanceFile with
  | none => rfl
  | some df =>
    cases htf : cfg.targetsFile with
    | some tf => rfl
    | none =>
      simp only []
      cases hread : fs.read? df with
      | none => rfl
      | some lines =>
        simp only []
        cases hrf : cfg.reventsFile with
        | none =>
          cases hpf : cfg.peventsFile with
          | none => rfl
          | some pf =>
            rcases hp pf hpf with hc | hc
            · rw [hdf] at hc; simp at hc
            · simp only [hc]
        | some rf =>
          rcases hr rf hrf with hc | hc
          · rw [hdf] at hc; simp at hc
          · simp only [hc]
            cases hpf : cfg.peventsFile with
            | none => rfl
            | some pf =>
              rcases hp pf hpf with hc2 | hc2
              · rw [hdf] at hc2; simp at hc2
              · simp only [hc2]

/-- C10: supplying an automaton-event or protocol-event file without a
distance file, or an event file that cannot be opened, silently skips
event-map loading: no error is raised (the run equals the run with the
event files not supplied), the monitoring modes stay disabled, and no
monitoring instrumentation is injected. -/
theorem c10_theorem (cfg : Cfg) (env : Env) (fs : FS) (mod : List Func) (rng : RNG)
    (hr : ∀ p, cfg.reventsFile = some p → cfg.distanceFile = none ∨ fs.read? p = none)
    (hp : ∀ p, cfg.peventsFile = some p → cfg.distanceFile = none ∨ fs.read? p = none) :
    (runOnModule cfg env fs mod rng).is_RERS_fuzzing = false ∧
    (runOnModule cfg env fs mod rng).is_protocol_fuzzing = false ∧
    (runOnModule cfg env fs mod rng).is_ltl_fuzzing = false ∧
    (∀ e ∈ (runOnModule cfg env fs mod rng).effects, isMonEffect e = false) ∧
    runOnModule cfg env fs mod rng =
      runOnModule { cfg with reventsFile := none, peventsFile := none } env fs mod rng := by
  have heq := runOnModule_events_erased cfg env fs mod rng hr hp
  have hflags := runOnModule_no_events
    { cfg with reventsFile := none, peventsFile := none } env fs mod rng rfl rfl
  rw [heq]
  exact ⟨hflags.1, hflags.2.1, hflags.2.2.1, hflags.2.2.2, rfl⟩

theorem c10_witness :
    (runOnModule { distanceFile := some "dist", reventsFile := some "nope" } {}
      ⟨[("dist", ["a.c:1,0.5"])]⟩ (exMod [{ debugLoc := some ("a.c", 1) }])
      []).is_ltl_fuzzing = false ∧
    (∀ e ∈ (runOnModule { distanceFile := some "dist", reventsFile := some "nope" } {}
      ⟨[("dist", ["a.c:1,0.5"])]⟩ (exMod [{ debugLoc := some ("a.c", 1) }])
      []).effects, isMonEffect e = false) := by
  have h := c10_theorem { distanceFile := some "dist", reventsFile := some "nope" } {}
    ⟨[("dist", ["a.c:1,0.5"])]⟩ (exMod [{ debugLoc := some ("a.c", 1) }]) []
    (by intro p hp2; right; cases hp2; decide)
    (by intro p hp2; cases hp2)
  exact ⟨h.2.2.1, h.2.2.2.1⟩

end AflLlvmPass
